import Mathlib

/-!
# Bootstrap sequence of the gcp-project-operator manager

A shallow embedding of `cmd/manager/main.go` (`printVersion`, `run`, `main`).

`run` is a straight-line sequence of calls into collaborators that live in
other packages (pflag, zap, controller-runtime, operator-sdk, hive, the
operator's own `apis` and `controller` packages).  Each collaborator is called
at most once per execution, so one execution is determined by the value each
call returns.  `Env` fixes those values; `run` turns an `Env` into the ordered
trace of the calls it makes (with the arguments it passes) and the `error` it
returns.  Executions in which a collaborator never returns, panics or exits
the process are not described by `Env`.
-/

namespace GcpProjectOperator

/-- A non-nil Go `error` value; `msg` is what its `Error()` method returns.
A Go `error` that may be nil is an `Option GoError`, nil being `none`. -/
structure GoError where
  msg : String
  deriving DecidableEq, Repr

/-- The two values `run` hands to collaborators as a cancellation input:
`stopChannel`, the channel returned by `signals.SetupSignalHandler()` (closed
on the first termination signal), and `todoContext`, the value of
`context.TODO()` (an empty context that is never cancelled). -/
inductive CancelInput where
  | stopChannel
  | todoContext
  deriving DecidableEq, Repr

/-- One observable action of `run`, in the order of the statements of the
source.  Arguments that `run` itself chooses are recorded. -/
inductive Event where
  /-- Call of `pflag.CommandLine.AddFlagSet(zap.FlagSet())` -/
  | addFlagSet
  /-- Call of `pflag.CommandLine.AddGoFlagSet(flag.CommandLine)` -/
  | addGoFlagSet
  /-- Call of `pflag.Parse()` -/
  | pflagParse
  /-- Call of `logf.SetLogger(zap.Logger())` -/
  | setLogger
  /-- Call of `signals.SetupSignalHandler()` -/
  | setupSignalHandler
  /-- Call of `log.Info(msg)` -/
  | logInfo (msg : String)
  /-- Call of `log.Error(err, msg)` -/
  | logError (err : GoError) (msg : String)
  /-- Call of `config.GetConfig()` -/
  | getConfig
  /-- Call of `leader.Become(ctx, lockName)` -/
  | leaderBecome (ctx : CancelInput) (lockName : String)
  /-- Call of `manager.New(cfg, manager.Options{Namespace: ns, MetricsBindAddress: addr, ..})` -/
  | managerNew (ns : String) (metricsBindAddress : String)
  /-- Call of `apis.AddToScheme(mgr.GetScheme())` -/
  | apisAddToScheme
  /-- Call of `hivev1alpha1.AddToScheme(mgr.GetScheme())` -/
  | hiveAddToScheme
  /-- Call of `controller.AddToManager(mgr)` -/
  | addToManager
  /-- Call of `metrics.ExposeMetricsPort(ctx, port)` -/
  | exposeMetricsPort (ctx : CancelInput) (port : Nat)
  /-- Call of `mgr.GetCache()` -/
  | getCache
  /-- The statement `go cache.Start(stop)`: the call is issued here and runs
  in its own goroutine. -/
  | cacheStart (stop : CancelInput)
  /-- Call of `cache.WaitForCacheSync(stop)` -/
  | waitForCacheSync (stop : CancelInput)
  /-- Call of `mgr.Start(stop)` -/
  | mgrStart (stop : CancelInput)
  deriving DecidableEq, Repr

/-- What every collaborator call returns in one execution.  The `cfg` and
`mgr` handles returned next to a nil error carry no information `run` branches
on, so only the error component is kept.  The calls that take a cancellation
input are functions of the arguments `run` passes. -/
structure Env where
  /-- Value of `runtime.Version()` -/
  goVersion : String
  /-- Value of `runtime.GOOS` -/
  goos : String
  /-- Value of `runtime.GOARCH` -/
  goarch : String
  /-- Value of `sdkVersion.Version` -/
  sdkVersion : String
  /-- The error of `config.GetConfig()` -/
  getConfig : Option GoError
  /-- The error of `leader.Become(ctx, lockName)`, which may depend on both
  arguments -/
  leaderBecome : CancelInput → String → Option GoError
  /-- The error of `manager.New(cfg, opts)` -/
  managerNew : Option GoError
  /-- The error of `apis.AddToScheme(mgr.GetScheme())` -/
  apisAddToScheme : Option GoError
  /-- The error of `hivev1alpha1.AddToScheme(mgr.GetScheme())` -/
  hiveAddToScheme : Option GoError
  /-- The error of `controller.AddToManager(mgr)` -/
  addToManager : Option GoError
  /-- The error of `metrics.ExposeMetricsPort(ctx, port)` -/
  exposeMetricsPort : CancelInput → Nat → Option GoError
  /-- The boolean `cache.WaitForCacheSync(stop)` returns: `false` when `stop`
  was closed before every informer synced -/
  waitForCacheSync : CancelInput → Bool
  /-- The error of `mgr.Start(stop)` -/
  mgrStart : CancelInput → Option GoError

/-- Package variable `var metricsHost = "0.0.0.0"` -/
def metricsHost : String := "0.0.0.0"

/-- Package variable `var metricsPort int32 = 8383` -/
def metricsPort : Nat := 8383

/-- The lock name literal passed to `leader.Become`. -/
def lockName : String := "gcp-project-operator-lock"

/-- The outcome of a function call: the actions performed, in order, and the
`error` returned (`none` is nil). -/
structure Exec where
  trace : List Event
  result : Option GoError
  deriving DecidableEq, Repr

/-- Function `printVersion()`: three `log.Info` lines. -/
def printVersion (env : Env) : List Event :=
  [ Event.logInfo ("Go Version: " ++ env.goVersion),
    Event.logInfo ("Go OS/Arch: " ++ env.goos ++ "/" ++ env.goarch),
    Event.logInfo ("Version of operator-sdk: " ++ env.sdkVersion) ]

/-- The actions of `run` up to and including `printVersion()`: flag set-up,
logger set-up and the creation of the stop channel. -/
def setup (env : Env) : List Event :=
  [ Event.addFlagSet, Event.addGoFlagSet, Event.pflagParse, Event.setLogger,
    Event.setupSignalHandler ] ++ printVersion env

/-- Sequencing of actions: first the actions `pre`, then everything `rest`
does; the returned error is the one `rest` returns. -/
def Exec.after (pre : List Event) (rest : Exec) : Exec :=
  ⟨pre ++ rest.trace, rest.result⟩

/-- Function `run()`, statement by statement.  Every
`if err != nil { log.Error(err, ..); return err }` of the source is one
`some err` branch, whose `Exec` ends the run. -/
def run (env : Env) : Exec :=
  -- pflag set-up, logf.SetLogger, stopCh := signals.SetupSignalHandler(), printVersion()
  let stopCh := CancelInput.stopChannel
  Exec.after (setup env) <|
  -- cfg, err := config.GetConfig()
  Exec.after [Event.getConfig] <|
  match env.getConfig with
  | some err => ⟨[Event.logError err ""], some err⟩
  | none =>
  -- ctx := context.TODO()
  let ctx := CancelInput.todoContext
  -- err = leader.Become(ctx, "gcp-project-operator-lock")
  Exec.after [Event.leaderBecome ctx lockName] <|
  match env.leaderBecome ctx lockName with
  | some err => ⟨[Event.logError err ""], some err⟩
  | none =>
  -- mgr, err := manager.New(cfg, manager.Options{..})
  Exec.after [Event.managerNew "" (metricsHost ++ ":" ++ toString metricsPort)] <|
  match env.managerNew with
  | some err => ⟨[Event.logError err ""], some err⟩
  | none =>
  Exec.after [Event.logInfo "Registering Components."] <|
  -- apis.AddToScheme(mgr.GetScheme())
  Exec.after [Event.apisAddToScheme] <|
  match env.apisAddToScheme with
  | some err => ⟨[Event.logError err ""], some err⟩
  | none =>
  -- hivev1alpha1.AddToScheme(mgr.GetScheme())
  Exec.after [Event.hiveAddToScheme] <|
  match env.hiveAddToScheme with
  | some err => ⟨[Event.logError err "error registering hive objects"], some err⟩
  | none =>
  -- controller.AddToManager(mgr)
  Exec.after [Event.addToManager] <|
  match env.addToManager with
  | some err => ⟨[Event.logError err ""], some err⟩
  | none =>
  -- _, err = metrics.ExposeMetricsPort(ctx, metricsPort)
  Exec.after [Event.exposeMetricsPort ctx metricsPort] <|
  -- if err != nil { log.Info(err.Error()) }: no return
  Exec.after
    (match env.exposeMetricsPort ctx metricsPort with
     | some err => [Event.logInfo err.msg]
     | none => []) <|
  Exec.after [Event.logInfo "init chache"] <|
  -- cache := mgr.GetCache(); go cache.Start(stopCh)
  Exec.after [Event.getCache, Event.cacheStart stopCh] <|
  -- cache.WaitForCacheSync(stopCh): the bool it returns is discarded
  let _synced := env.waitForCacheSync stopCh
  Exec.after [Event.waitForCacheSync stopCh] <|
  Exec.after [Event.logInfo "Starting the Cmd."] <|
  -- return mgr.Start(stopCh)
  ⟨[Event.mgrStart stopCh], env.mgrStart stopCh⟩

/-- How `main` ends: it returns normally, or it panics with an error. -/
inductive MainOutcome where
  | returned
  | panicked (err : GoError)
  deriving DecidableEq, Repr

/-- Function `main()`: `if err := run(); err != nil { panic(err) }`. -/
def main (env : Env) : MainOutcome :=
  match (run env).result with
  | some err => MainOutcome.panicked err
  | none => MainOutcome.returned

/-! ## Vocabulary for statements about traces -/

/-- The collaborator calls of `run` that can block: leader acquisition, the
cache, the sync barrier and the manager. -/
def Event.isBlocking : Event → Bool
  | Event.leaderBecome _ _ => true
  | Event.cacheStart _ => true
  | Event.waitForCacheSync _ => true
  | Event.mgrStart _ => true
  | _ => false

/-- The cancellation input a call receives, for the calls that take one. -/
def Event.cancelInput : Event → Option CancelInput
  | Event.leaderBecome c _ => some c
  | Event.exposeMetricsPort c _ => some c
  | Event.cacheStart c => some c
  | Event.waitForCacheSync c => some c
  | Event.mgrStart c => some c
  | _ => none

/-- Position of a collaborator call in the start-up sequence of `run`
(`config.GetConfig` is step 0, `mgr.Start` is step 9); set-up and logging
actions are not steps. -/
def Event.step : Event → Option Nat
  | Event.getConfig => some 0
  | Event.leaderBecome _ _ => some 1
  | Event.managerNew _ _ => some 2
  | Event.apisAddToScheme => some 3
  | Event.hiveAddToScheme => some 4
  | Event.addToManager => some 5
  | Event.exposeMetricsPort _ _ => some 6
  | Event.cacheStart _ => some 7
  | Event.waitForCacheSync _ => some 8
  | Event.mgrStart _ => some 9
  | _ => none

def Event.isLeaderBecome : Event → Bool
  | Event.leaderBecome _ _ => true
  | _ => false

def Event.isManagerNew : Event → Bool
  | Event.managerNew _ _ => true
  | _ => false

def Event.isApisAddToScheme : Event → Bool
  | Event.apisAddToScheme => true
  | _ => false

def Event.isHiveAddToScheme : Event → Bool
  | Event.hiveAddToScheme => true
  | _ => false

def Event.isSetupSignalHandler : Event → Bool
  | Event.setupSignalHandler => true
  | _ => false

def Event.isLogError : Event → Bool
  | Event.logError _ _ => true
  | _ => false

/-- The two type-registration calls. -/
def Event.isTypeRegistration : Event → Bool
  | Event.apisAddToScheme => true
  | Event.hiveAddToScheme => true
  | _ => false

def Event.isAddToManager : Event → Bool
  | Event.addToManager => true
  | _ => false

def Event.isExposeMetricsPort : Event → Bool
  | Event.exposeMetricsPort _ _ => true
  | _ => false

def Event.isCacheStart : Event → Bool
  | Event.cacheStart _ => true
  | _ => false

def Event.isWaitForCacheSync : Event → Bool
  | Event.waitForCacheSync _ => true
  | _ => false

def Event.isMgrStart : Event → Bool
  | Event.mgrStart _ => true
  | _ => false

/-- Some action satisfying `p` occurs in the trace `t`. -/
def Occurs (p : Event → Bool) (t : List Event) : Prop :=
  ∃ a ∈ t, p a = true

/-- Every `q` action of the trace has a `p` action at a strictly smaller
position: a `q` happens only after a `p` has happened. -/
def PrecededBy (p q : Event → Bool) (t : List Event) : Prop :=
  ∀ (j : Nat) (b : Event), t[j]? = some b → q b = true →
    ∃ (i : Nat) (a : Event), i < j ∧ t[i]? = some a ∧ p a = true

/-- Every `p` action of the trace is at a strictly smaller position than every
`q` action: no `p` happens at or after a `q`. -/
def AllBefore (p q : Event → Bool) (t : List Event) : Prop :=
  ∀ (i j : Nat) (a b : Event),
    t[i]? = some a → t[j]? = some b → p a = true → q b = true → i < j

/-- The six start-up steps of `run` whose error is returned to the caller, in
the order of the source. -/
inductive FatalStep where
  | getConfig
  | leaderBecome
  | managerNew
  | apisAddToScheme
  | hiveAddToScheme
  | addToManager
  deriving DecidableEq, Repr

/-- Position of a fatal step in the start-up sequence, numbered as in
`Event.step`. -/
def FatalStep.rank : FatalStep → Nat
  | FatalStep.getConfig => 0
  | FatalStep.leaderBecome => 1
  | FatalStep.managerNew => 2
  | FatalStep.apisAddToScheme => 3
  | FatalStep.hiveAddToScheme => 4
  | FatalStep.addToManager => 5

/-- The error the step returns in the execution `env`, called with the
arguments `run` passes. -/
def FatalStep.error (env : Env) : FatalStep → Option GoError
  | FatalStep.getConfig => env.getConfig
  | FatalStep.leaderBecome => env.leaderBecome CancelInput.todoContext lockName
  | FatalStep.managerNew => env.managerNew
  | FatalStep.apisAddToScheme => env.apisAddToScheme
  | FatalStep.hiveAddToScheme => env.hiveAddToScheme
  | FatalStep.addToManager => env.addToManager

/-- The step `s` is the first of the sequence to return a non-nil error, and
that error is `e`. -/
def FirstFailure (env : Env) (s : FatalStep) (e : GoError) : Prop :=
  s.error env = some e ∧ ∀ s' : FatalStep, s'.rank < s.rank → s'.error env = none

/-- Every fatal step returns a nil error. -/
def StartupSucceeds (env : Env) : Prop :=
  ∀ s : FatalStep, s.error env = none

/-- An execution in which every collaborator succeeds, the cache syncs and the
manager stops cleanly. -/
def okEnv : Env where
  goVersion := "go1.13"
  goos := "linux"
  goarch := "amd64"
  sdkVersion := "v0.8.0"
  getConfig := none
  leaderBecome := fun _ _ => none
  managerNew := none
  apisAddToScheme := none
  hiveAddToScheme := none
  addToManager := none
  exposeMetricsPort := fun _ _ => none
  waitForCacheSync := fun _ => true
  mgrStart := fun _ => none

/-- An execution in which `manager.New` is the first step to fail. -/
def managerNewFailsEnv : Env :=
  { okEnv with managerNew := some ⟨"unable to create manager"⟩ }

/-- An execution in which only the metrics port cannot be exposed. -/
def telemetryFailsEnv : Env :=
  { okEnv with exposeMetricsPort := fun _ _ => some ⟨"address already in use"⟩ }

/-- An execution in which the stop channel is closed before the cache has
synced: `cache.WaitForCacheSync` returns false, every other call succeeds. -/
def syncFailsEnv : Env :=
  { okEnv with waitForCacheSync := fun _ => false }

/-- An execution in which the shutdown signal has fired before leadership is
acquired: a call handed the stop channel is cancelled (`leader.Become` would
return an error, the sync wait returns false, the manager stops at once and
cleanly), while a call handed `context.TODO()` is not cancelled and completes. -/
def signalFiredEnv : Env :=
  { okEnv with
    leaderBecome := fun c _ =>
      match c with
      | CancelInput.stopChannel => some ⟨"context canceled"⟩
      | CancelInput.todoContext => none
    waitForCacheSync := fun _ => false
    mgrStart := fun _ => none }

/-- An execution in which `leader.Become` fails. -/
def leaderBecomeFailsEnv : Env :=
  { okEnv with leaderBecome := fun _ _ => some ⟨"leader election failed"⟩ }

/-- An execution in which start-up succeeds and `mgr.Start` returns an error. -/
def mgrStartFailsEnv : Env :=
  { okEnv with mgrStart := fun _ => some ⟨"leader election lost"⟩ }

/-- Executable form of `PrecededBy`; `seen` tells whether a `p` action has
already been passed. -/
def precededByCheck (p q : Event → Bool) : Bool → List Event → Bool
  | _, [] => true
  | seen, e :: t => (!q e || seen) && precededByCheck p q (seen || p e) t

/-- Executable form of `AllBefore`. -/
def allBeforeCheck (p q : Event → Bool) : List Event → Bool
  | [] => true
  | e :: t => (!q e || (!p e && t.all (fun x => !p x))) && allBeforeCheck p q t

/-- Number of actions of the trace satisfying `p`. -/
def occurrences (p : Event → Bool) (t : List Event) : Nat :=
  (t.filter p).length

/-! ## General lemmas on traces -/

theorem precededByCheck_sound (p q : Event → Bool) :
    ∀ (t : List Event) (seen : Bool), precededByCheck p q seen t = true →
      ∀ (j : Nat) (b : Event), t[j]? = some b → q b = true →
        seen = true ∨ ∃ (i : Nat) (a : Event), i < j ∧ t[i]? = some a ∧ p a = true := by
  intro t
  induction t with
  | nil => intro seen _ j b hj; simp at hj
  | cons e t ih =>
    intro seen h j b hj hq
    simp only [precededByCheck, Bool.and_eq_true, Bool.or_eq_true,
      Bool.not_eq_true'] at h
    obtain ⟨h1, h2⟩ := h
    cases j with
    | zero =>
      simp only [List.getElem?_cons_zero, Option.some.injEq] at hj
      subst hj
      rcases h1 with h1 | h1
      · rw [hq] at h1; exact absurd h1 (by decide)
      · exact Or.inl h1
    | succ j =>
      simp only [List.getElem?_cons_succ] at hj
      rcases ih (seen || p e) h2 j b hj hq with h3 | ⟨i, a, hij, hi, hp⟩
      · simp only [Bool.or_eq_true] at h3
        rcases h3 with h3 | h3
        · exact Or.inl h3
        · exact Or.inr ⟨0, e, Nat.succ_pos j, by simp, h3⟩
      · exact Or.inr ⟨i + 1, a, Nat.succ_lt_succ hij, by simpa using hi, hp⟩

theorem precededBy_of_check (p q : Event → Bool) (t : List Event)
    (h : precededByCheck p q false t = true) : PrecededBy p q t := by
  unfold PrecededBy
  intro j b hj hq
  rcases precededByCheck_sound p q t false h j b hj hq with h1 | h1
  · exact absurd h1 (by decide)
  · exact h1

theorem allBefore_of_check (p q : Event → Bool) :
    ∀ (t : List Event), allBeforeCheck p q t = true → AllBefore p q t := by
  intro t
  induction t with
  | nil => intro _; unfold AllBefore; intro i j a b hi; simp at hi
  | cons e t ih =>
    intro h
    unfold AllBefore
    intro i j a b hi hj hp hq
    simp only [allBeforeCheck, Bool.and_eq_true, Bool.or_eq_true,
      Bool.not_eq_true', List.all_eq_true] at h
    obtain ⟨h1, h2⟩ := h
    cases j with
    | zero =>
      simp only [List.getElem?_cons_zero, Option.some.injEq] at hj
      subst hj
      rcases h1 with h1 | ⟨h1, h3⟩
      · rw [hq] at h1; exact absurd h1 (by decide)
      · cases i with
        | zero =>
          simp only [List.getElem?_cons_zero, Option.some.injEq] at hi
          subst hi
          rw [hp] at h1; exact absurd h1 (by decide)
        | succ i =>
          simp only [List.getElem?_cons_succ] at hi
          have hmem : a ∈ t := List.getElem?_mem hi
          have := h3 a hmem
          rw [hp] at this; exact absurd this (by decide)
    | succ j =>
      cases i with
      | zero => exact Nat.succ_pos j
      | succ i =>
        simp only [List.getElem?_cons_succ] at hi hj
        exact Nat.succ_lt_succ (ih h2 i j a b hi hj hp hq)

theorem occurs_of_any (p : Event → Bool) (t : List Event) (h : t.any p = true) :
    Occurs p t := by
  unfold Occurs
  simpa [List.any_eq_true] using h

theorem not_occurs_of_all (p : Event → Bool) (t : List Event)
    (h : t.all (fun x => !p x) = true) : ¬ Occurs p t := by
  unfold Occurs
  simp only [List.all_eq_true, Bool.not_eq_true'] at h
  rintro ⟨a, ha, hp⟩
  rw [h a ha] at hp
  exact absurd hp (by decide)

/-! ## The paths of `run` -/

theorem StartupSucceeds.fields {env : Env} (hok : StartupSucceeds env) :
    env.getConfig = none ∧ env.leaderBecome CancelInput.todoContext lockName = none ∧
    env.managerNew = none ∧ env.apisAddToScheme = none ∧ env.hiveAddToScheme = none ∧
    env.addToManager = none :=
  ⟨hok FatalStep.getConfig, hok FatalStep.leaderBecome, hok FatalStep.managerNew,
   hok FatalStep.apisAddToScheme, hok FatalStep.hiveAddToScheme, hok FatalStep.addToManager⟩

/-- The whole of `run` once every fatal step has succeeded. -/
theorem run_of_startupSucceeds (env : Env) (hok : StartupSucceeds env) :
    run env =
      Exec.after (setup env ++
        [ Event.getConfig, Event.leaderBecome CancelInput.todoContext lockName,
          Event.managerNew "" (metricsHost ++ ":" ++ toString metricsPort),
          Event.logInfo "Registering Components.", Event.apisAddToScheme,
          Event.hiveAddToScheme, Event.addToManager,
          Event.exposeMetricsPort CancelInput.todoContext metricsPort ])
      (Exec.after
        (match env.exposeMetricsPort CancelInput.todoContext metricsPort with
         | some err => [Event.logInfo err.msg]
         | none => [])
        ⟨[ Event.logInfo "init chache", Event.getCache,
           Event.cacheStart CancelInput.stopChannel,
           Event.waitForCacheSync CancelInput.stopChannel,
           Event.logInfo "Starting the Cmd.", Event.mgrStart CancelInput.stopChannel ],
         env.mgrStart CancelInput.stopChannel⟩) := by
  obtain ⟨h0, h1, h2, h3, h4, h5⟩ := hok.fields
  simp [run, Exec.after, h0, h1, h2, h3, h4, h5]

theorem result_of_startupSucceeds (env : Env) (hok : StartupSucceeds env) :
    (run env).result = env.mgrStart CancelInput.stopChannel := by
  rw [run_of_startupSucceeds env hok]; rfl

/-! ## Fatal start-up errors -/

/-- The path of `run` on which the step `s` is the first to fail. -/
theorem run_of_firstFailure (env : Env) (s : FatalStep) (e : GoError)
    (h : FirstFailure env s e) :
    (run env).result = some e ∧
    (∃ ev ∈ (run env).trace, ev.step = some s.rank) ∧
    (∀ ev ∈ (run env).trace, ∀ k, ev.step = some k → k ≤ s.rank) ∧
    ¬ Occurs Event.isCacheStart (run env).trace ∧
    ¬ Occurs Event.isWaitForCacheSync (run env).trace ∧
    ¬ Occurs Event.isMgrStart (run env).trace := by
  obtain ⟨hfail, hfirst⟩ := h
  cases s
  · simp only [FatalStep.error] at hfail
    simp [run, Exec.after, hfail, setup, printVersion, Event.step, FatalStep.rank, Occurs,
      Event.isCacheStart, Event.isWaitForCacheSync, Event.isMgrStart]
  · have h0 := hfirst FatalStep.getConfig (by decide)
    simp only [FatalStep.error] at hfail h0
    simp [run, Exec.after, hfail, h0, setup, printVersion, Event.step, FatalStep.rank, Occurs,
      Event.isCacheStart, Event.isWaitForCacheSync, Event.isMgrStart]
  · have h0 := hfirst FatalStep.getConfig (by decide)
    have h1 := hfirst FatalStep.leaderBecome (by decide)
    simp only [FatalStep.error] at hfail h0 h1
    simp [run, Exec.after, hfail, h0, h1, setup, printVersion, Event.step, FatalStep.rank,
      Occurs, Event.isCacheStart, Event.isWaitForCacheSync, Event.isMgrStart]
  · have h0 := hfirst FatalStep.getConfig (by decide)
    have h1 := hfirst FatalStep.leaderBecome (by decide)
    have h2 := hfirst FatalStep.managerNew (by decide)
    simp only [FatalStep.error] at hfail h0 h1 h2
    simp [run, Exec.after, hfail, h0, h1, h2, setup, printVersion, Event.step,
      FatalStep.rank, Occurs, Event.isCacheStart, Event.isWaitForCacheSync, Event.isMgrStart]
  · have h0 := hfirst FatalStep.getConfig (by decide)
    have h1 := hfirst FatalStep.leaderBecome (by decide)
    have h2 := hfirst FatalStep.managerNew (by decide)
    have h3 := hfirst FatalStep.apisAddToScheme (by decide)
    simp only [FatalStep.error] at hfail h0 h1 h2 h3
    simp [run, Exec.after, hfail, h0, h1, h2, h3, setup, printVersion, Event.step,
      FatalStep.rank, Occurs, Event.isCacheStart, Event.isWaitForCacheSync, Event.isMgrStart]
  · have h0 := hfirst FatalStep.getConfig (by decide)
    have h1 := hfirst FatalStep.leaderBecome (by decide)
    have h2 := hfirst FatalStep.managerNew (by decide)
    have h3 := hfirst FatalStep.apisAddToScheme (by decide)
    have h4 := hfirst FatalStep.hiveAddToScheme (by decide)
    simp only [FatalStep.error] at hfail h0 h1 h2 h3 h4
    simp [run, Exec.after, hfail, h0, h1, h2, h3, h4, setup, printVersion, Event.step,
      FatalStep.rank, Occurs, Event.isCacheStart, Event.isWaitForCacheSync, Event.isMgrStart]

/-- C1: if a fatal start-up step (`config.GetConfig`, `leader.Become`,
`manager.New`, `apis.AddToScheme`, `hivev1alpha1.AddToScheme`,
`controller.AddToManager`) is the first one to return a non-nil error `e`,
then `run` returns exactly `e`, the failing step was executed, no step that
follows it in the sequence is executed, and in particular `cache.Start`,
`cache.WaitForCacheSync` and `mgr.Start` are never called. -/
theorem run_returns_first_fatal_error (env : Env) (s : FatalStep) (e : GoError)
    (h : FirstFailure env s e) :
    (run env).result = some e ∧
    (∃ ev ∈ (run env).trace, ev.step = some s.rank) ∧
    (∀ ev ∈ (run env).trace, ∀ k, ev.step = some k → k ≤ s.rank) ∧
    ¬ Occurs Event.isCacheStart (run env).trace ∧
    ¬ Occurs Event.isWaitForCacheSync (run env).trace ∧
    ¬ Occurs Event.isMgrStart (run env).trace :=
  run_of_firstFailure env s e h

/-- C1 at an execution in which `manager.New` fails after configuration and
leadership succeeded. -/
theorem run_returns_first_fatal_error_witness :
    FirstFailure managerNewFailsEnv FatalStep.managerNew ⟨"unable to create manager"⟩ ∧
    (run managerNewFailsEnv).result = some ⟨"unable to create manager"⟩ ∧
    ¬ Occurs Event.isCacheStart (run managerNewFailsEnv).trace ∧
    ¬ Occurs Event.isWaitForCacheSync (run managerNewFailsEnv).trace ∧
    ¬ Occurs Event.isMgrStart (run managerNewFailsEnv).trace := by
  have hff : FirstFailure managerNewFailsEnv FatalStep.managerNew
      ⟨"unable to create manager"⟩ := by
    refine ⟨rfl, ?_⟩
    intro s hs
    cases s
    · rfl
    · rfl
    all_goals exact absurd hs (by decide)
  have h := run_returns_first_fatal_error managerNewFailsEnv FatalStep.managerNew
    ⟨"unable to create manager"⟩ hff
  exact ⟨hff, h.1, h.2.2.2⟩

/-! ## Telemetry -/

/-- C2: telemetry failure is not fatal.  Whatever `metrics.ExposeMetricsPort`
returns, once every earlier step has succeeded `run` goes on to call
`cache.Start`, `cache.WaitForCacheSync` and `mgr.Start`, each exactly once
and in that order, after the exposure attempt; and it returns what it returns
in the execution that differs only in that the exposure succeeds, namely the
result of `mgr.Start`. -/
theorem telemetry_failure_is_not_fatal (env : Env) (hok : StartupSucceeds env) :
    occurrences Event.isCacheStart (run env).trace = 1 ∧
    occurrences Event.isWaitForCacheSync (run env).trace = 1 ∧
    occurrences Event.isMgrStart (run env).trace = 1 ∧
    AllBefore Event.isExposeMetricsPort Event.isCacheStart (run env).trace ∧
    AllBefore Event.isCacheStart Event.isWaitForCacheSync (run env).trace ∧
    AllBefore Event.isWaitForCacheSync Event.isMgrStart (run env).trace ∧
    (run env).result = (run { env with exposeMetricsPort := fun _ _ => none }).result ∧
    (run env).result = env.mgrStart CancelInput.stopChannel := by
  have hok2 : StartupSucceeds { env with exposeMetricsPort := fun _ _ => none } := by
    intro s; have h := hok s; revert h; cases s <;> exact id
  refine ⟨?_, ?_, ?_, ?_, ?_, ?_, ?_, result_of_startupSucceeds env hok⟩
  · rw [run_of_startupSucceeds env hok]; split <;> rfl
  · rw [run_of_startupSucceeds env hok]; split <;> rfl
  · rw [run_of_startupSucceeds env hok]; split <;> rfl
  · apply allBefore_of_check
    rw [run_of_startupSucceeds env hok]; split <;> rfl
  · apply allBefore_of_check
    rw [run_of_startupSucceeds env hok]; split <;> rfl
  · apply allBefore_of_check
    rw [run_of_startupSucceeds env hok]; split <;> rfl
  · rw [result_of_startupSucceeds env hok, result_of_startupSucceeds _ hok2]

/-- C2 at an execution in which the metrics port is already bound. -/
theorem telemetry_failure_is_not_fatal_witness :
    StartupSucceeds telemetryFailsEnv ∧
    telemetryFailsEnv.exposeMetricsPort CancelInput.todoContext metricsPort
      = some ⟨"address already in use"⟩ ∧
    occurrences Event.isCacheStart (run telemetryFailsEnv).trace = 1 ∧
    occurrences Event.isWaitForCacheSync (run telemetryFailsEnv).trace = 1 ∧
    occurrences Event.isMgrStart (run telemetryFailsEnv).trace = 1 ∧
    (run telemetryFailsEnv).result = none := by
  have hok : StartupSucceeds telemetryFailsEnv := by intro s; cases s <;> rfl
  have h := telemetry_failure_is_not_fatal telemetryFailsEnv hok
  exact ⟨hok, rfl, h.1, h.2.1, h.2.2.1, h.2.2.2.2.2.2.2⟩

/-! ## The sync barrier -/

/-- C3 as stated fails: in `syncFailsEnv` every fatal step succeeds and
`cache.WaitForCacheSync(stopCh)` returns false, yet `run` calls `mgr.Start`
and returns nil. -/
theorem failed_sync_wait_is_not_fatal :
    StartupSucceeds syncFailsEnv ∧
    syncFailsEnv.waitForCacheSync CancelInput.stopChannel = false ∧
    Occurs Event.isMgrStart (run syncFailsEnv).trace ∧
    (run syncFailsEnv).result = none := by
  refine ⟨?_, rfl, ?_, rfl⟩
  · intro s; cases s <;> rfl
  · exact occurs_of_any _ _ rfl

/-- C3 amended: the boolean returned by `cache.WaitForCacheSync` is discarded.
Replacing it by any other value changes neither the actions of `run` nor its
result; after a successful start-up, whether the wait returned true or false,
`run` calls `mgr.Start(stopCh)` after the wait and returns exactly what
`mgr.Start` returns, so it returns a non-nil error only if `mgr.Start` does. -/
theorem sync_wait_result_is_discarded (env : Env) (hok : StartupSucceeds env) :
    (∀ w : CancelInput → Bool, run { env with waitForCacheSync := w } = run env) ∧
    occurrences Event.isMgrStart (run env).trace = 1 ∧
    PrecededBy Event.isWaitForCacheSync Event.isMgrStart (run env).trace ∧
    (run env).result = env.mgrStart CancelInput.stopChannel ∧
    ((run env).result ≠ none ↔ env.mgrStart CancelInput.stopChannel ≠ none) := by
  refine ⟨fun w => rfl, ?_, ?_, result_of_startupSucceeds env hok, ?_⟩
  · rw [run_of_startupSucceeds env hok]; split <;> rfl
  · apply precededBy_of_check
    rw [run_of_startupSucceeds env hok]; split <;> rfl
  · rw [result_of_startupSucceeds env hok]

/-- C3 amended, at an execution whose sync wait fails. -/
theorem sync_wait_result_is_discarded_witness :
    StartupSucceeds syncFailsEnv ∧
    syncFailsEnv.waitForCacheSync CancelInput.stopChannel = false ∧
    occurrences Event.isMgrStart (run syncFailsEnv).trace = 1 ∧
    (run syncFailsEnv).result = syncFailsEnv.mgrStart CancelInput.stopChannel := by
  have hok : StartupSucceeds syncFailsEnv := by intro s; cases s <;> rfl
  have h := sync_wait_result_is_discarded syncFailsEnv hok
  exact ⟨hok, rfl, h.2.1, h.2.2.2.1⟩

/-- Either every fatal step succeeds or one of them is the first to fail. -/
theorem startupSucceeds_or_firstFailure (env : Env) :
    StartupSucceeds env ∨ ∃ s e, FirstFailure env s e := by
  cases h0 : env.getConfig with
  | some e => exact Or.inr ⟨FatalStep.getConfig, e, h0, fun s' hs => absurd hs (by cases s' <;> decide)⟩
  | none =>
  cases h1 : env.leaderBecome CancelInput.todoContext lockName with
  | some e =>
    refine Or.inr ⟨FatalStep.leaderBecome, e, h1, fun s' hs => ?_⟩
    cases s' <;> first | exact h0 | exact absurd hs (by decide)
  | none =>
  cases h2 : env.managerNew with
  | some e =>
    refine Or.inr ⟨FatalStep.managerNew, e, h2, fun s' hs => ?_⟩
    cases s' <;> first | exact h0 | exact h1 | exact absurd hs (by decide)
  | none =>
  cases h3 : env.apisAddToScheme with
  | some e =>
    refine Or.inr ⟨FatalStep.apisAddToScheme, e, h3, fun s' hs => ?_⟩
    cases s' <;> first | exact h0 | exact h1 | exact h2 | exact absurd hs (by decide)
  | none =>
  cases h4 : env.hiveAddToScheme with
  | some e =>
    refine Or.inr ⟨FatalStep.hiveAddToScheme, e, h4, fun s' hs => ?_⟩
    cases s' <;> first | exact h0 | exact h1 | exact h2 | exact h3 | exact absurd hs (by decide)
  | none =>
  cases h5 : env.addToManager with
  | some e =>
    refine Or.inr ⟨FatalStep.addToManager, e, h5, fun s' hs => ?_⟩
    cases s' <;>
      first | exact h0 | exact h1 | exact h2 | exact h3 | exact h4 | exact absurd hs (by decide)
  | none =>
    refine Or.inl fun s => ?_
    cases s <;> first | exact h0 | exact h1 | exact h2 | exact h3 | exact h4 | exact h5

/-- On a failing path the last action of `run` is `log.Error` on the error it
returns. -/
theorem lastAction_of_firstFailure (env : Env) (s : FatalStep) (e : GoError)
    (h : FirstFailure env s e) :
    ∃ msg, (run env).trace.getLast? = some (Event.logError e msg) := by
  obtain ⟨hfail, hfirst⟩ := h
  cases s
  · simp only [FatalStep.error] at hfail
    exact ⟨"", by simp only [run, hfail]; rfl⟩
  · have h0 := hfirst FatalStep.getConfig (by decide)
    simp only [FatalStep.error] at hfail h0
    exact ⟨"", by simp only [run, hfail, h0]; rfl⟩
  · have h0 := hfirst FatalStep.getConfig (by decide)
    have h1 := hfirst FatalStep.leaderBecome (by decide)
    simp only [FatalStep.error] at hfail h0 h1
    exact ⟨"", by simp only [run, hfail, h0, h1]; rfl⟩
  · have h0 := hfirst FatalStep.getConfig (by decide)
    have h1 := hfirst FatalStep.leaderBecome (by decide)
    have h2 := hfirst FatalStep.managerNew (by decide)
    simp only [FatalStep.error] at hfail h0 h1 h2
    exact ⟨"", by simp only [run, hfail, h0, h1, h2]; rfl⟩
  · have h0 := hfirst FatalStep.getConfig (by decide)
    have h1 := hfirst FatalStep.leaderBecome (by decide)
    have h2 := hfirst FatalStep.managerNew (by decide)
    have h3 := hfirst FatalStep.apisAddToScheme (by decide)
    simp only [FatalStep.error] at hfail h0 h1 h2 h3
    exact ⟨"error registering hive objects", by simp only [run, hfail, h0, h1, h2, h3]; rfl⟩
  · have h0 := hfirst FatalStep.getConfig (by decide)
    have h1 := hfirst FatalStep.leaderBecome (by decide)
    have h2 := hfirst FatalStep.managerNew (by decide)
    have h3 := hfirst FatalStep.apisAddToScheme (by decide)
    have h4 := hfirst FatalStep.hiveAddToScheme (by decide)
    simp only [FatalStep.error] at hfail h0 h1 h2 h3 h4
    exact ⟨"", by simp only [run, hfail, h0, h1, h2, h3, h4]; rfl⟩

/-- `mgr.Start` is reached only on the path where every fatal step succeeded. -/
theorem startupSucceeds_of_mgrStart (env : Env)
    (h : Occurs Event.isMgrStart (run env).trace) : StartupSucceeds env := by
  rcases startupSucceeds_or_firstFailure env with hok | ⟨s, e, hff⟩
  · exact hok
  · exact absurd h (run_of_firstFailure env s e hff).2.2.2.2.2

/-! ## Preconditions of the reconciliation loop -/

/-- C4 as stated fails: in `syncFailsEnv` the call `mgr.Start` is made although
`cache.WaitForCacheSync` has returned false. -/
theorem mgrStart_called_after_failed_sync :
    Occurs Event.isMgrStart (run syncFailsEnv).trace ∧
    syncFailsEnv.waitForCacheSync CancelInput.stopChannel = false ∧
    ¬ (∀ env : Env, Occurs Event.isMgrStart (run env).trace →
        env.leaderBecome CancelInput.todoContext lockName = none ∧
        env.waitForCacheSync CancelInput.stopChannel = true) := by
  have hocc : Occurs Event.isMgrStart (run syncFailsEnv).trace := occurs_of_any _ _ rfl
  refine ⟨hocc, rfl, fun hall => ?_⟩
  have h := (hall syncFailsEnv hocc).2
  exact absurd h (by decide)

/-- C4 amended: in every execution of `run`, `mgr.Start` is called exactly
when all six fatal start-up steps, `leader.Become` among them, returned nil.
When it is called, `leader.Become` has previously been called and returned
nil and `cache.WaitForCacheSync` has previously been called and has returned.
The value the wait returned is not consulted: replacing it by any other value
changes neither the actions of `run` nor its result, so `mgr.Start` is called
after a wait that returned false just as after one that returned true. -/
theorem mgrStart_only_after_leadership_and_wait (env : Env) :
    (Occurs Event.isMgrStart (run env).trace ↔ StartupSucceeds env) ∧
    (∀ w : CancelInput → Bool, run { env with waitForCacheSync := w } = run env) ∧
    (∀ w : CancelInput → Bool, StartupSucceeds env →
      Occurs Event.isMgrStart (run { env with waitForCacheSync := w }).trace) ∧
    (Occurs Event.isMgrStart (run env).trace →
      env.leaderBecome CancelInput.todoContext lockName = none ∧
      PrecededBy Event.isLeaderBecome Event.isMgrStart (run env).trace ∧
      PrecededBy Event.isWaitForCacheSync Event.isMgrStart (run env).trace ∧
      AllBefore Event.isLeaderBecome Event.isMgrStart (run env).trace ∧
      AllBefore Event.isWaitForCacheSync Event.isMgrStart (run env).trace) := by
  have hocc : StartupSucceeds env → Occurs Event.isMgrStart (run env).trace := by
    intro hok
    rw [run_of_startupSucceeds env hok]
    split <;> exact occurs_of_any _ _ rfl
  refine ⟨⟨startupSucceeds_of_mgrStart env, hocc⟩, fun w => rfl, fun w hok => hocc hok, ?_⟩
  intro h
  have hok := startupSucceeds_of_mgrStart env h
  refine ⟨hok FatalStep.leaderBecome, ?_, ?_, ?_, ?_⟩
  · apply precededBy_of_check
    rw [run_of_startupSucceeds env hok]; split <;> rfl
  · apply precededBy_of_check
    rw [run_of_startupSucceeds env hok]; split <;> rfl
  · apply allBefore_of_check
    rw [run_of_startupSucceeds env hok]; split <;> rfl
  · apply allBefore_of_check
    rw [run_of_startupSucceeds env hok]; split <;> rfl

/-- C4 amended, at an execution in which every fatal step succeeds and the
sync wait returns false: `mgr.Start` is called, after `leader.Become` returned
nil and after the wait returned. -/
theorem mgrStart_only_after_leadership_and_wait_witness :
    StartupSucceeds syncFailsEnv ∧
    syncFailsEnv.waitForCacheSync CancelInput.stopChannel = false ∧
    Occurs Event.isMgrStart (run syncFailsEnv).trace ∧
    syncFailsEnv.leaderBecome CancelInput.todoContext lockName = none ∧
    PrecededBy Event.isLeaderBecome Event.isMgrStart (run syncFailsEnv).trace ∧
    PrecededBy Event.isWaitForCacheSync Event.isMgrStart (run syncFailsEnv).trace := by
  have hok : StartupSucceeds syncFailsEnv := by intro s; cases s <;> rfl
  have hocc := (mgrStart_only_after_leadership_and_wait syncFailsEnv).1.mpr hok
  have h := (mgrStart_only_after_leadership_and_wait syncFailsEnv).2.2.2 hocc
  exact ⟨hok, rfl, hocc, h.1, h.2.1, h.2.2.1⟩

/-! ## Cancellation inputs -/

/-- C5 as stated fails: `leader.Become` is a blocking call of `run` whose
cancellation input is `context.TODO()`, not the stop channel; and in
`signalFiredEnv`, where a leader acquisition handed the stop channel would be
cancelled, `run` returns nil and starts both the cache and the manager. -/
theorem leaderBecome_not_cancelled_by_signal :
    Event.leaderBecome CancelInput.todoContext lockName ∈ (run signalFiredEnv).trace ∧
    (Event.leaderBecome CancelInput.todoContext lockName).isBlocking = true ∧
    (Event.leaderBecome CancelInput.todoContext lockName).cancelInput
      ≠ some CancelInput.stopChannel ∧
    signalFiredEnv.leaderBecome CancelInput.stopChannel lockName ≠ none ∧
    (run signalFiredEnv).result = none ∧
    Occurs Event.isCacheStart (run signalFiredEnv).trace ∧
    Occurs Event.isMgrStart (run signalFiredEnv).trace := by
  refine ⟨?_, rfl, by decide, ?_, rfl, occurs_of_any _ _ rfl, occurs_of_any _ _ rfl⟩
  · simp [run, Exec.after, signalFiredEnv, okEnv, setup, printVersion]
  · simp [signalFiredEnv]

/-- C5 amended: `cache.Start`, `cache.WaitForCacheSync` and `mgr.Start`
receive the stop channel created by `signals.SetupSignalHandler` (called
once, before every blocking call) as their cancellation input, while `leader.Become` receives `context.TODO()`, which
the shutdown signal does not cancel.  Whenever `leader.Become` returns an
error after `config.GetConfig` succeeded, `run` returns that error and
neither the cache, nor the sync wait, nor the manager is started. -/
theorem blocking_calls_cancellation_inputs (env : Env) :
    (∀ ev ∈ (run env).trace, ev.isBlocking = true →
      ev.cancelInput =
        some (if ev.isLeaderBecome = true then CancelInput.todoContext
              else CancelInput.stopChannel)) ∧
    occurrences Event.isSetupSignalHandler (run env).trace = 1 ∧
    AllBefore Event.isSetupSignalHandler Event.isBlocking (run env).trace ∧
    (∀ e, env.getConfig = none →
      env.leaderBecome CancelInput.todoContext lockName = some e →
        (run env).result = some e ∧
        ¬ Occurs Event.isCacheStart (run env).trace ∧
        ¬ Occurs Event.isWaitForCacheSync (run env).trace ∧
        ¬ Occurs Event.isMgrStart (run env).trace) := by
  refine ⟨?_, ?_, ?_, ?_⟩
  · unfold run
    simp only []
    repeat' split
    all_goals
      simp [Exec.after, setup, printVersion, Event.isBlocking, Event.cancelInput,
        Event.isLeaderBecome]
  · unfold run
    simp only []
    repeat' split
    all_goals rfl
  · apply allBefore_of_check
    unfold run
    simp only []
    repeat' split
    all_goals rfl
  · intro e h0 h1
    have hff : FirstFailure env FatalStep.leaderBecome e := by
      refine ⟨h1, fun s' hs => ?_⟩
      cases s' <;> first | exact h0 | exact absurd hs (by decide)
    have h := run_of_firstFailure env FatalStep.leaderBecome e hff
    exact ⟨h.1, h.2.2.2⟩

/-- C5 amended, at an execution in which `leader.Become` fails. -/
theorem blocking_calls_cancellation_inputs_witness :
    leaderBecomeFailsEnv.getConfig = none ∧
    leaderBecomeFailsEnv.leaderBecome CancelInput.todoContext lockName
      = some ⟨"leader election failed"⟩ ∧
    (run leaderBecomeFailsEnv).result = some ⟨"leader election failed"⟩ ∧
    ¬ Occurs Event.isCacheStart (run leaderBecomeFailsEnv).trace ∧
    ¬ Occurs Event.isWaitForCacheSync (run leaderBecomeFailsEnv).trace ∧
    ¬ Occurs Event.isMgrStart (run leaderBecomeFailsEnv).trace :=
  ⟨rfl, rfl,
   (blocking_calls_cancellation_inputs leaderBecomeFailsEnv).2.2.2
     ⟨"leader election failed"⟩ rfl rfl⟩

/-! ## Ordering of registration, cache and manager -/

/-- C6: in every execution trace of `run`, each type-registration call
(`apis.AddToScheme`, `hivev1alpha1.AddToScheme`) occurs strictly before
`controller.AddToManager`, `controller.AddToManager` occurs strictly before
`cache.Start`, and `cache.WaitForCacheSync` occurs strictly before
`mgr.Start`: the later call is never made unless the earlier one has been
made before it, and the earlier one is never made at or after the later one.
In particular no type registration occurs once `controller.AddToManager` has
begun. -/
theorem registration_ordering (env : Env) :
    (PrecededBy Event.isApisAddToScheme Event.isAddToManager (run env).trace ∧
     PrecededBy Event.isHiveAddToScheme Event.isAddToManager (run env).trace ∧
     AllBefore Event.isTypeRegistration Event.isAddToManager (run env).trace) ∧
    (PrecededBy Event.isAddToManager Event.isCacheStart (run env).trace ∧
     AllBefore Event.isAddToManager Event.isCacheStart (run env).trace) ∧
    (PrecededBy Event.isWaitForCacheSync Event.isMgrStart (run env).trace ∧
     AllBefore Event.isWaitForCacheSync Event.isMgrStart (run env).trace) := by
  refine ⟨⟨?_, ?_, ?_⟩, ⟨?_, ?_⟩, ⟨?_, ?_⟩⟩
  · apply precededBy_of_check
    unfold run; simp only []; repeat' split
    all_goals rfl
  · apply precededBy_of_check
    unfold run; simp only []; repeat' split
    all_goals rfl
  · apply allBefore_of_check
    unfold run; simp only []; repeat' split
    all_goals rfl
  · apply precededBy_of_check
    unfold run; simp only []; repeat' split
    all_goals rfl
  · apply allBefore_of_check
    unfold run; simp only []; repeat' split
    all_goals rfl
  · apply precededBy_of_check
    unfold run; simp only []; repeat' split
    all_goals rfl
  · apply allBefore_of_check
    unfold run; simp only []; repeat' split
    all_goals rfl

/-! ## Process exit -/

/-- C7: `main` panics, with the error `run` returned, if and only if `run`
returns a non-nil error, and returns normally if and only if `run` returns
nil.  When every start-up step succeeds `run` returns exactly the result of
`mgr.Start(stopCh)`, so when `mgr.Start` returns nil `run` returns nil and
`main` returns normally. -/
theorem main_panics_iff_run_fails (env : Env) :
    (∀ e, main env = MainOutcome.panicked e ↔ (run env).result = some e) ∧
    ((∃ e, main env = MainOutcome.panicked e) ↔ (run env).result ≠ none) ∧
    (main env = MainOutcome.returned ↔ (run env).result = none) ∧
    (StartupSucceeds env →
      (run env).result = env.mgrStart CancelInput.stopChannel ∧
      (env.mgrStart CancelInput.stopChannel = none →
        (run env).result = none ∧ main env = MainOutcome.returned)) := by
  refine ⟨?_, ?_, ?_, ?_⟩
  · intro e
    unfold main
    cases (run env).result <;> simp
  · unfold main
    cases (run env).result <;> simp
  · unfold main
    cases (run env).result <;> simp
  · intro hok
    have hres := result_of_startupSucceeds env hok
    refine ⟨hres, fun hnil => ?_⟩
    have h : (run env).result = none := by rw [hres, hnil]
    exact ⟨h, by unfold main; rw [h]⟩

/-- C7 at the execution in which everything succeeds and the manager stops
cleanly. -/
theorem main_panics_iff_run_fails_witness :
    StartupSucceeds okEnv ∧ okEnv.mgrStart CancelInput.stopChannel = none ∧
    (run okEnv).result = none ∧ main okEnv = MainOutcome.returned := by
  have hok : StartupSucceeds okEnv := by intro s; cases s <;> rfl
  exact ⟨hok, rfl, ((main_panics_iff_run_fails okEnv).2.2.2 hok).2 rfl⟩

/-! ## Error logging -/

/-- C8: every non-nil error `run` returns should have been passed to
`log.Error` by `run` before it returns.  The code departs from this on its
last statement, `return mgr.Start(stopCh)`: in `mgrStartFailsEnv`, where
start-up succeeds and `mgr.Start` returns an error, `run` returns that error
and its trace holds no `log.Error` call at all, for that error or any other. -/
theorem mgrStart_error_is_not_logged :
    (run mgrStartFailsEnv).result = some ⟨"leader election lost"⟩ ∧
    ¬ Occurs Event.isLogError (run mgrStartFailsEnv).trace ∧
    (∀ msg, Event.logError ⟨"leader election lost"⟩ msg ∉ (run mgrStartFailsEnv).trace) := by
  have hno : ¬ Occurs Event.isLogError (run mgrStartFailsEnv).trace :=
    not_occurs_of_all _ _ rfl
  exact ⟨rfl, hno, fun msg hmem => hno ⟨_, hmem, rfl⟩⟩

/-- The sibling paths of the `mgr.Start` return: whenever `run` returns an
error `e` because one of the six fatal start-up steps failed, the last action
of `run` before it returns is `log.Error` on `e`.  The telemetry error is not
fatal: after a successful start-up, an error of `metrics.ExposeMetricsPort`
is logged with `log.Info`, never with `log.Error`, and `run` continues to
`mgr.Start`. -/
theorem startup_errors_are_logged (env : Env) :
    (¬ StartupSucceeds env → ∀ e, (run env).result = some e →
      ∃ msg, (run env).trace.getLast? = some (Event.logError e msg)) ∧
    (StartupSucceeds env → ∀ e,
      env.exposeMetricsPort CancelInput.todoContext metricsPort = some e →
        Event.logInfo e.msg ∈ (run env).trace ∧
        ¬ Occurs Event.isLogError (run env).trace ∧
        Occurs Event.isMgrStart (run env).trace) := by
  refine ⟨?_, ?_⟩
  · intro hnot e hres
    rcases startupSucceeds_or_firstFailure env with hok | ⟨s, e', hff⟩
    · exact absurd hok hnot
    · have h1 := (run_of_firstFailure env s e' hff).1
      rw [h1] at hres
      have hee : e' = e := Option.some.inj hres
      rw [← hee]
      exact lastAction_of_firstFailure env s e' hff
  · intro hok e he
    rw [run_of_startupSucceeds env hok, he]
    refine ⟨?_, not_occurs_of_all _ _ rfl, occurs_of_any _ _ rfl⟩
    simp [Exec.after]

/-! ## The lock identity -/

/-- C9: the lock identity is a fixed constant.  In any two executions of
`run`, whatever the collaborators return, `leader.Become` is called at most
once, every call of it carries the lock name `"gcp-project-operator-lock"`
(so the two executions use the same name), and it is called before
`manager.New`, before every type registration and before
`controller.AddToManager`. -/
theorem lock_name_is_constant (env₁ env₂ : Env) :
    occurrences Event.isLeaderBecome (run env₁).trace ≤ 1 ∧
    occurrences Event.isLeaderBecome (run env₂).trace ≤ 1 ∧
    (∀ c n, Event.leaderBecome c n ∈ (run env₁).trace → n = "gcp-project-operator-lock") ∧
    (∀ c₁ n₁ c₂ n₂, Event.leaderBecome c₁ n₁ ∈ (run env₁).trace →
      Event.leaderBecome c₂ n₂ ∈ (run env₂).trace → n₁ = n₂) ∧
    (PrecededBy Event.isLeaderBecome Event.isManagerNew (run env₁).trace ∧
     AllBefore Event.isLeaderBecome Event.isManagerNew (run env₁).trace) ∧
    (PrecededBy Event.isLeaderBecome Event.isTypeRegistration (run env₁).trace ∧
     AllBefore Event.isLeaderBecome Event.isTypeRegistration (run env₁).trace) ∧
    (PrecededBy Event.isLeaderBecome Event.isAddToManager (run env₁).trace ∧
     AllBefore Event.isLeaderBecome Event.isAddToManager (run env₁).trace) := by
  have hocc : ∀ env : Env, occurrences Event.isLeaderBecome (run env).trace ≤ 1 := by
    intro env
    unfold run; simp only []; repeat' split
    all_goals exact Nat.le_of_ble_eq_true rfl
  have hname : ∀ (env : Env) (c : CancelInput) (n : String),
      Event.leaderBecome c n ∈ (run env).trace → n = "gcp-project-operator-lock" := by
    intro env c n
    unfold run; simp only []; repeat' split
    all_goals simp [Exec.after, setup, printVersion, lockName]
  refine ⟨hocc env₁, hocc env₂, hname env₁, ?_, ⟨?_, ?_⟩, ⟨?_, ?_⟩, ⟨?_, ?_⟩⟩
  · intro c₁ n₁ c₂ n₂ h₁ h₂
    rw [hname env₁ c₁ n₁ h₁, hname env₂ c₂ n₂ h₂]
  · apply precededBy_of_check
    unfold run; simp only []; repeat' split
    all_goals rfl
  · apply allBefore_of_check
    unfold run; simp only []; repeat' split
    all_goals rfl
  · apply precededBy_of_check
    unfold run; simp only []; repeat' split
    all_goals rfl
  · apply allBefore_of_check
    unfold run; simp only []; repeat' split
    all_goals rfl
  · apply precededBy_of_check
    unfold run; simp only []; repeat' split
    all_goals rfl
  · apply allBefore_of_check
    unfold run; simp only []; repeat' split
    all_goals rfl

end GcpProjectOperator
